import Mathlib

/-!
Verification of the command-construction and terminal-output-capture
subsystem of the script-util repository, as a shallow embedding in Lean.

The embedding models:
* `src/logging/Spinner.ts` — the timer-driven spinner, as a state machine
  whose operations return the list of strings they pass to `stream.write`;
* `src/logging/Bracket.ts` — the output bracket: the intercepting writer
  (`capturedWrite`), `capture` and `release`, `task` and `finalize`.  The
  underlying stream is modelled as the ordered trace of chunks handed to the
  saved original writer;
* `src/ssh.ts` — `buildCmd`, `buildPrefix`, `buildSSHFlags` and the option
  methods of the promise-like object returned by the SSH shell;
* `src/shell.ts` — `buildCommand` with its expression formatter `fmt`;
* `src/rsync.ts` — the ssh-flag assembly of the `rsync` helper.

Shell escaping is performed by the external collaborator `$.escape` (Bun),
whose code is not part of this repository; every definition that needs it
takes the escape function as an explicit parameter `esc`.
-/

namespace ScriptUtil

/-! ## Spinner (src/logging/Spinner.ts)

State of one `Spinner` object: `running` models `timer != null`,
`currentFrame` the frame index, `writing` the `_writing` reentrancy guard,
and `writeOnStop` the `_writeOnStop` deferred payload. -/

structure SpinnerState where
  running : Bool
  currentFrame : Nat
  writing : Bool
  writeOnStop : Option String
deriving Repr, DecidableEq

/-- The fixed 4-glyph animation cycle `this.frames`. -/
def spinnerFrames : List String := ["-", "\\", "|", "/"]

/-- A freshly constructed spinner: no timer, frame 0, not writing, no
deferred payload. -/
def SpinnerState.init : SpinnerState :=
  { running := false, currentFrame := 0, writing := false, writeOnStop := none }

/-- `writeOnStop(value)` with a string argument: stores the deferred
payload.  (The zero-argument getter overload is just field access.) -/
def SpinnerState.setWriteOnStop (s : SpinnerState) (v : String) : SpinnerState :=
  { s with writeOnStop := some v }

/-- `start()`: no-op if the timer is armed, otherwise arms the interval
timer.  Arming the timer writes nothing; frames are written by later
ticks. -/
def SpinnerState.start (s : SpinnerState) : SpinnerState :=
  if s.running then s else { s with running := true }

/-- One interval-timer tick: writes the current frame glyph followed by a
backspace, then advances the frame index modulo the cycle length.  Returns
the new state and the strings written to the stream. -/
def SpinnerState.tick (s : SpinnerState) : SpinnerState × List String :=
  if s.running then
    ({ s with currentFrame := (s.currentFrame + 1) % spinnerFrames.length },
     [(spinnerFrames.getD s.currentFrame "") ++ "\x08"])
  else (s, [])

/-- `stop()`: if the timer is not armed, a complete no-op.  Otherwise it
cancels the timer, writes the erase-character control sequence, then — if
the deferred payload is truthy (set and non-empty) — writes the payload,
and finally clears the payload and the timer.  The `_writing` guard is
raised for the duration of these writes and lowered again; the returned
state carries the final (lowered) value, and the returned list is the
sequence of `stream.write` calls issued while the guard was raised. -/
def SpinnerState.stop (s : SpinnerState) : SpinnerState × List String :=
  if s.running then
    let payloadWrites : List String :=
      match s.writeOnStop with
      | some p => if p = "" then [] else [p]
      | none => []
    ({ s with running := false, writing := false, writeOnStop := none },
     "\x1b[P" :: payloadWrites)
  else (s, [])

/-! ## Output capture (src/logging/Bracket.ts)

The underlying stream is modelled as the ordered list of chunks handed to
the saved original writer.  A chunk is either a raw binary payload
(`Uint8Array`) or a string. -/

inductive Chunk where
  | binary (bytes : List Nat)
  | text (s : String)
deriving Repr, DecidableEq

/-- The state owned by one installed interceptor: the `newline`
continuation flag of the `capture()` closure, and the trace of chunks
written through the original writer so far. -/
structure CapSt where
  newline : Bool
  out : List Chunk
deriving Repr, DecidableEq

/-- The line-splitting loop of `capturedWrite`: split a character list
into segments, each ending at a newline (which is kept), with a final
segment without newline if any characters remain.  The source scans for
the first newline and slices; this accumulator renders the same loop
structurally. -/
def splitAux : List Char → List Char → List (List Char)
  | [], acc => if acc = [] then [] else [acc.reverse]
  | c :: cs, acc =>
    if c = '\n' then (acc.reverse ++ ['\n']) :: splitAux cs []
    else splitAux cs (c :: acc)

/-- Split a textual chunk into lines, keeping the newline at the end of
each line. -/
def splitChunk (s : String) : List String :=
  (splitAux s.data []).map (fun l => String.mk l)

/-- JavaScript `line.endsWith("\n")`: whether the last character is a
newline. -/
def endsWithNl (s : String) : Bool :=
  match s.data.getLast? with
  | some c => c = '\n'
  | none => false

/-- The `lines.forEach` loop of `capturedWrite`: for each line, if the
`newline` flag is set, first write the body glyph, then write the line,
then set the flag to whether the line ends in a newline.  Returns the
chunks written and the final flag. -/
def writeLines (glyph : String) : List String → Bool → List Chunk × Bool
  | [], nl => ([], nl)
  | line :: rest, nl =>
    let here := (if nl then [Chunk.text glyph] else []) ++ [Chunk.text line]
    let next := writeLines glyph rest (endsWithNl line)
    (here ++ next.1, next.2)

/-- Process one textual chunk through the split-and-prefix logic (the part
of `capturedWrite` that runs when no spinner interaction happens — in
particular the path taken for the reentrant writes the spinner itself
issues while its `_writing` guard is raised). -/
def writeText (glyph : String) (cap : CapSt) (s : String) : CapSt :=
  let r := writeLines glyph (splitChunk s) cap.newline
  { newline := r.2, out := cap.out ++ r.1 }

/-- Pure description of the chunks emitted (and the final continuation
flag produced) by a sequence of textual writes processed by `writeText`,
starting from continuation flag `nl`. -/
def emitsOfWrites (glyph : String) (nl : Bool) : List String → List Chunk × Bool
  | [] => ([], nl)
  | w :: rest =>
    let r1 := writeLines glyph (splitChunk w) nl
    let r2 := emitsOfWrites glyph r1.2 rest
    (r1.1 ++ r2.1, r2.2)

/-- State of one `Bracket` relevant to capture, tasks and finalization.
`spinner` is the `taskSpinner` field (possibly `undefined`), `captured`
says whether `stream.write` currently is the intercepting writer,
`hasOriginal` whether `originalWrite` has been saved, `currentTask` the
flag set by `task()`. -/
structure BracketSt where
  cap : CapSt
  spinner : Option SpinnerState
  captured : Bool
  hasOriginal : Bool
  currentTask : Bool
deriving Repr, DecidableEq

/-- The textual branch of `capturedWrite`.  If the task spinner exists, is
not mid-write and is running, it is stopped first; its stop-writes reenter
the intercepting writer with the `_writing` guard raised, so they are
processed by the plain `writeText` path (prefixing included).  Then the
chunk itself is split and written, and finally the spinner is restarted if
it had been stopped here. -/
def capturedWriteText (glyph : String) (st : BracketSt) (s : String) : BracketSt :=
  match st.spinner with
  | some sp =>
    if !sp.writing && sp.running then
      let stopped := sp.stop
      let cap1 := stopped.2.foldl (writeText glyph) st.cap
      let cap2 := writeText glyph cap1 s
      { st with cap := cap2, spinner := some stopped.1.start }
    else
      { st with cap := writeText glyph st.cap s }
  | none => { st with cap := writeText glyph st.cap s }

/-- The full intercepting writer installed by `capture()`.  A `Uint8Array`
chunk is passed straight through to the original writer and `true` is
returned; a textual chunk is processed by `capturedWriteText` and `true`
is returned.  `origRet` gives, per chunk, the boolean the original writer
would return for the pass-through writes; the source discards those
results, so the parameter is never consulted. -/
def capturedWrite (glyph : String) (_origRet : Chunk → Bool) (st : BracketSt)
    (ch : Chunk) : BracketSt × Bool :=
  match ch with
  | Chunk.binary bs =>
    ({ st with cap := { st.cap with out := st.cap.out ++ [Chunk.binary bs] } }, true)
  | Chunk.text s => (capturedWriteText glyph st s, true)

/-! ## Bracket lifecycle (src/logging/Bracket.ts) -/

/-- The bracket options relevant here.  `taskSpinnerOpt` is
`options.taskSpinner` (absent, `true` or `false`); `taskGap` is
`options.taskGap`; `captureIsTTY` is `none` when no capture stream is
configured and `some b` when a stream with `isTTY` evaluating to `b` is
(an undefined `isTTY` is already folded to `false` by the source). -/
structure BracketOptions where
  taskSpinnerOpt : Option Bool
  taskGap : Option Nat
  captureIsTTY : Option Bool
deriving Repr, DecidableEq

/-- The per-call `task` options (`options.spinner`). -/
structure TaskOptions where
  spinner : Option Bool
deriving Repr, DecidableEq

/-- The constructor: `isInteractiveTty` is `options.capture?.isTTY ?? false`,
`useTaskSpinner` is `options.taskSpinner !== false && isInteractiveTty`, and
the `taskSpinner` field is then assigned
`useTaskSpinner ? undefined : taskSpinner` — i.e. the spinner passed to the
constructor is kept only when `useTaskSpinner` is false. -/
def mkBracket (taskSpinner : Option SpinnerState) (opts : BracketOptions) : BracketSt :=
  let isInteractiveTty := opts.captureIsTTY.getD false
  let useTaskSpinner := (opts.taskSpinnerOpt != some false) && isInteractiveTty
  { cap := { newline := true, out := [] }
    spinner := if useTaskSpinner then none else taskSpinner
    captured := false
    hasOriginal := false
    currentTask := false }

/-- `capture()`: returns immediately when no capture stream is configured;
otherwise saves the original writer (keeping an already-saved one) and
installs the intercepting writer. -/
def BracketSt.capture (opts : BracketOptions) (st : BracketSt) : BracketSt :=
  match opts.captureIsTTY with
  | none => st
  | some _ => { st with captured := true, hasOriginal := true }

/-- `release()`: returns when no capture stream is configured or when no
original writer was saved; otherwise assigns the saved original writer
back to the stream. -/
def BracketSt.release (opts : BracketOptions) (st : BracketSt) : BracketSt :=
  match opts.captureIsTTY with
  | none => st
  | some _ => if st.hasOriginal then { st with captured := false } else st

/-- A write issued through `this.out` (which writes via the current
`stream.write`): while the interceptor is installed it lands in
`capturedWriteText`, otherwise it goes to the stream directly, unprefixed
and without touching the continuation flag. -/
def bracketOut (glyph : String) (st : BracketSt) (s : String) : BracketSt :=
  if st.captured then capturedWriteText glyph st s
  else { st with cap := { st.cap with out := st.cap.out ++ [Chunk.text s] } }

/-- `this.taskSpinner?.stop()`: the stop-writes of the spinner go through
the current `stream.write` — through the interceptor (plain `writeText`
path, because the `_writing` guard is raised) while captured, directly
otherwise. -/
def stopTaskSpinner (glyph : String) (st : BracketSt) : BracketSt :=
  match st.spinner with
  | none => st
  | some sp =>
    let stopped := sp.stop
    let cap1 :=
      if st.captured then stopped.2.foldl (writeText glyph) st.cap
      else { st.cap with out := st.cap.out ++ stopped.2.map Chunk.text }
    { st with cap := cap1, spinner := some stopped.1 }

/-- `finalize()`: stop the task spinner, write one empty line
(`this.line()` writes the single chunk consisting of a newline), release
the captured stream, then print the footer
(`this.out(footerGlyph ++ "/\n")`). -/
def BracketSt.finalize (opts : BracketOptions) (body footer : String)
    (st : BracketSt) : BracketSt :=
  let st1 := stopTaskSpinner body st
  let st2 := bracketOut body st1 "\n"
  let st3 := st2.release opts
  bracketOut body st3 (footer ++ "/\n")

/-- `task(description, options)`: stop any prior task spinner, write the
configured blank-line gap when a task was already current, mark a task
current, write the bullet-rendered description (`bullet` renders the chalk
template around the description), and then — when
`options.taskSpinner !== false && taskOptions.spinner !== false` and the
`taskSpinner` field is non-null — write one space, queue the deferred
stop-payload and start the spinner; otherwise write the newline now. -/
def BracketSt.task (body : String) (bullet : String → String)
    (opts : BracketOptions) (st : BracketSt) (description : String)
    (topts : TaskOptions) : BracketSt :=
  let st1 := stopTaskSpinner body st
  let st2 :=
    if st1.currentTask then
      (List.range (opts.taskGap.getD 0)).foldl (fun s _ => bracketOut body s "\n") st1
    else st1
  let st3 := { st2 with currentTask := true }
  let st4 := bracketOut body st3 (bullet description)
  let useSpinner := (opts.taskSpinnerOpt != some false) && (topts.spinner != some false)
  if useSpinner && st4.spinner.isSome then
    let st5 := bracketOut body st4 " "
    { st5 with
      spinner := st5.spinner.map (fun sp => (sp.setWriteOnStop "\x08\x1b[P\n").start) }
  else
    bracketOut body st4 "\n"

/-! ## SSH shell (src/ssh.ts)

The escape function is the external `$.escape`; it is a parameter `esc`
throughout. -/

/-- An interpolated expression of the SSH template call: `buildCmd`
distinguishes arrays (each element escaped, joined by one space) from
everything else (escaped as one value). -/
inductive SSHExpr where
  | scalar (s : String)
  | arr (xs : List String)
deriving Repr, DecidableEq

/-- Formatting of one expression inside `buildCmd`. -/
def fmtSSHExpr (esc : String → String) : SSHExpr → String
  | SSHExpr.scalar s => esc s
  | SSHExpr.arr xs => String.intercalate " " (xs.map esc)

/-- `buildCmd()`: concatenate the template fragments, inserting the
formatted expression after each fragment that has one. -/
def buildCmd (esc : String → String) : List String → List SSHExpr → String
  | [], _ => ""
  | p :: ps, [] => p ++ buildCmd esc ps []
  | p :: ps, e :: es => p ++ fmtSSHExpr esc e ++ buildCmd esc ps es

/-- JavaScript `String(v)` on a value of type `string | undefined`. -/
def jsString : Option String → String
  | some s => s
  | none => "undefined"

/-- `buildPrefix()`: a `cd <escaped-cwd> && ` part when `cwd` is truthy,
then one `<NAME>=<escaped-value> ` part per env entry, in insertion
order. -/
def buildPrefix (esc : String → String) (cwd : Option String)
    (env : List (String × Option String)) : String :=
  (match cwd with
   | some c => if c = "" then "" else "cd " ++ esc c ++ " && "
   | none => "") ++
  (if env.length > 0 then
    env.foldl (fun acc kv => acc ++ kv.1 ++ "=" ++ esc (jsString kv.2) ++ " ") ""
   else "")

/-- `buildSSHFlags()`: `-t` when a tty is requested, `-J <proxy>` when a
proxy is configured (truthy), then the caller-supplied `sshArgs`. -/
def buildSSHFlags (tty : Bool) (proxy : Option String)
    (sshArgs : List String) : List String :=
  (if tty then ["-t"] else []) ++
  (match proxy with
   | some p => if p = "" then [] else ["-J", p]
   | none => []) ++
  sshArgs

/-- The single remote command argument of the generated `ssh` invocation:
`run()` passes `prefix + cmd` as one argument after the host. -/
def remoteCommandArg (esc : String → String) (cwd : Option String)
    (env : List (String × Option String)) (strings : List String)
    (exprs : List SSHExpr) : String :=
  buildPrefix esc cwd env ++ buildCmd esc strings exprs

/-- The option state of the promise-like object returned by the SSH
template call: the closure variable `shouldThrow` (unset, or explicitly
`true` or `false`) and the `quiet` flag. -/
structure SSHPromiseState where
  shouldThrow : Option Bool
  quiet : Bool
deriving Repr, DecidableEq

/-- The state of a freshly created SSH shell promise. -/
def SSHPromiseState.init : SSHPromiseState :=
  { shouldThrow := none, quiet := false }

/-- The `throws(shouldThrow)` method.  In the source the parameter shadows
the closure variable of the same name, and the method body assigns the
parameter back to itself, so the closure variable is left unchanged. -/
def SSHPromiseState.throws (st : SSHPromiseState) (_shouldThrow : Bool) :
    SSHPromiseState :=
  st

/-- The `nothrow()` method: sets the closure variable to `false`. -/
def SSHPromiseState.nothrow (st : SSHPromiseState) : SSHPromiseState :=
  { st with shouldThrow := some false }

/-- Outcome of awaiting an execution: either the promise resolves to a
result carrying the exit code, or the calling process is terminated with
the given status. -/
inductive ExecOutcome where
  | result (exitCode : Nat)
  | processExit (code : Nat)
deriving Repr, DecidableEq

/-- Modelled from the spec (the transport under `run()` is the external
Bun shell wrapped by `createShell`): by default a non-zero exit rejects
the promise, and the wrapping shell then prints diagnostics and terminates
the whole process with exit status 1; with the throw policy set to `false`
(via `retval.throws(false)`, applied by `run()` only when the closure
variable `shouldThrow` has been set) the failure is returned as a result
carrying the non-zero exit code. -/
def runOutcome (st : SSHPromiseState) (exitCode : Nat) : ExecOutcome :=
  let effectiveThrows := st.shouldThrow.getD true
  if exitCode ≠ 0 ∧ effectiveThrows then ExecOutcome.processExit 1
  else ExecOutcome.result exitCode

/-! ## Command logging builder (src/shell.ts) -/

/-- A template expression as classified by `fmt` inside `buildCommand`:
a plain object carrying a string `raw` field, a string, a number (carried
here as the string `toString()` produces for it), a boolean, an array of
expressions, or anything else (carried as its template stringification). -/
inductive ShellExpr where
  | raw (s : String)
  | str (s : String)
  | num (s : String)
  | boolean (b : Bool)
  | arr (xs : List ShellExpr)
  | other (s : String)
deriving Repr

mutual

/-- `fmt(expr)`: a raw marker is inserted verbatim; strings and numbers
are escaped; booleans render as the literal tokens; arrays format each
element recursively and join with one space; anything else stringifies
generically. -/
def fmt (esc : String → String) : ShellExpr → String
  | ShellExpr.raw s => s
  | ShellExpr.str s => esc s
  | ShellExpr.num s => esc s
  | ShellExpr.boolean b => if b then "true" else "false"
  | ShellExpr.arr xs => String.intercalate " " (fmtList esc xs)
  | ShellExpr.other s => s

/-- `expr.map(fmt)` for the array case. -/
def fmtList (esc : String → String) : List ShellExpr → List String
  | [] => []
  | e :: es => fmt esc e :: fmtList esc es

end

/-- JavaScript `replace(/\s+/g, " ")`: every maximal whitespace run
collapses to one space.  The boolean tracks whether the previous character
was part of a whitespace run. -/
def collapseWsAux : List Char → Bool → List Char
  | [], _ => []
  | c :: cs, inWs =>
    if c.isWhitespace then
      (if inWs then [] else [' ']) ++ collapseWsAux cs true
    else c :: collapseWsAux cs false

/-- Whitespace normalization applied to each literal fragment. -/
def normalizeWs (s : String) : String := String.mk (collapseWsAux s.data false)

/-- JavaScript `trim()`: drop leading and trailing whitespace. -/
def jsTrim (s : String) : String :=
  String.mk (((s.data.dropWhile Char.isWhitespace).reverse.dropWhile
    Char.isWhitespace).reverse)

/-- The treatment of each formatted expression:
`arg.trim().replace(/^\s+|\s+$/, " ")`.  The replace is first-match-only
and an already-trimmed string has no leading or trailing whitespace run,
so the replace never matches and the net effect is the trim. -/
def trimArg (s : String) : String := jsTrim s

/-- `buildCommand(parts, expressions)`: concatenate the
whitespace-normalized fragments, inserting after each fragment (while
expressions remain) the trimmed formatted expression. -/
def buildCommand (esc : String → String) : List String → List ShellExpr → String
  | [], _ => ""
  | p :: ps, [] => normalizeWs p ++ buildCommand esc ps []
  | p :: ps, e :: es => normalizeWs p ++ trimArg (fmt esc e) ++ buildCommand esc ps es

/-! ## rsync (src/rsync.ts) -/

/-- The ssh flags assembled by the `rsync` helper: `-J <proxy>` when a
proxy is given (`!= null` in the source, so even an empty string counts),
and — unless host-key verification was re-enabled — the two options
disabling strict host-key checking and known-hosts verification. -/
def rsyncSSHFlags (proxy : Option String) (hostKeyVerification : Option Bool) :
    List String :=
  (match proxy with
   | some p => ["-J", p]
   | none => []) ++
  (if hostKeyVerification.getD false then []
   else ["-o", "StrictHostKeyChecking=no", "-o", "UserKnownHostsFile=/dev/null"])

/-! ## Support definitions for the theorems below -/

/-- Whether the optional task spinner is certainly not running. -/
def spinnerNotRunning : Option SpinnerState → Bool
  | none => true
  | some sp => !sp.running

/-- The textual content of a chunk (binary chunks contribute no text). -/
def chunkStr : Chunk → String
  | Chunk.binary _ => ""
  | Chunk.text s => s

/-- The byte stream carried by a trace of chunks, as one string. -/
def chunksText (l : List Chunk) : String :=
  l.foldr (fun c acc => chunkStr c ++ acc) ""

/-- A concrete escape function used to instantiate theorems that are
parametric in the external `$.escape`: it leaves `1` alone and wraps
everything else in single quotes. -/
def escW : String → String :=
  fun s => if s = "1" then "1" else "\x27" ++ s ++ "\x27"

/-- Options of a bracket over an interactive capture stream, everything
else defaulted. -/
def bugOptsTTY : BracketOptions :=
  { taskSpinnerOpt := none, taskGap := none, captureIsTTY := some true }

/-- Options of a bracket over a non-interactive capture stream, everything
else defaulted. -/
def bugOptsNoTTY : BracketOptions :=
  { taskSpinnerOpt := none, taskGap := none, captureIsTTY := some false }

/-- Options for the double-finalize scenario: a capture stream is
configured. -/
def c5Opts : BracketOptions :=
  { taskSpinnerOpt := none, taskGap := none, captureIsTTY := some false }

/-- A bracket (without task spinner) that has captured its stream. -/
def c5Bracket : BracketSt := BracketSt.capture c5Opts (mkBracket none c5Opts)

/-! ## Helper lemmas -/

/-- Unfolding of `writeText` into the emitted chunks and the final
continuation flag. -/
theorem writeText_eq (glyph : String) (cap : CapSt) (s : String) :
    writeText glyph cap s
      = { newline := (writeLines glyph (splitChunk s) cap.newline).2,
          out := cap.out ++ (writeLines glyph (splitChunk s) cap.newline).1 } := rfl

/-- A sequence of textual writes processed by `writeText` appends exactly
the chunks described by `emitsOfWrites` to the trace. -/
theorem foldl_writeText (glyph : String) (ws : List String) (cap : CapSt) :
    ws.foldl (writeText glyph) cap
      = { newline := (emitsOfWrites glyph cap.newline ws).2,
          out := cap.out ++ (emitsOfWrites glyph cap.newline ws).1 } := by
  induction ws generalizing cap with
  | nil => simp [emitsOfWrites]
  | cons w rest ih =>
    simp only [List.foldl_cons, emitsOfWrites]
    rw [ih]
    simp [writeText_eq, List.append_assoc]

/-- Stopping a spinner always leaves it not running. -/
theorem stop_not_running (sp : SpinnerState) : sp.stop.1.running = false := by
  by_cases h : sp.running <;> simp [SpinnerState.stop, h]

/-- The intercepting writer changes neither the `captured` nor the
`hasOriginal` flag. -/
theorem capturedWriteText_flags (g : String) (st : BracketSt) (s : String) :
    (capturedWriteText g st s).captured = st.captured
    ∧ (capturedWriteText g st s).hasOriginal = st.hasOriginal := by
  cases hs : st.spinner
  · simp [capturedWriteText, hs]
  · simp only [capturedWriteText, hs]
    split <;> simp

/-- The intercepting writer leaves a non-running spinner untouched. -/
theorem capturedWriteText_spinner (g : String) (st : BracketSt) (s : String)
    (h : spinnerNotRunning st.spinner = true) :
    (capturedWriteText g st s).spinner = st.spinner := by
  cases hs : st.spinner with
  | none => simp [capturedWriteText, hs]
  | some sp =>
    have hr : sp.running = false := by
      rw [hs] at h
      simpa [spinnerNotRunning] using h
    simp [capturedWriteText, hs, hr]

/-- `this.out` changes neither the `captured` nor the `hasOriginal`
flag. -/
theorem bracketOut_flags (g : String) (st : BracketSt) (s : String) :
    (bracketOut g st s).captured = st.captured
    ∧ (bracketOut g st s).hasOriginal = st.hasOriginal := by
  by_cases h : st.captured <;>
    simp [bracketOut, h, capturedWriteText_flags]

/-- `this.out` leaves a non-running spinner untouched. -/
theorem bracketOut_spinner (g : String) (st : BracketSt) (s : String)
    (h : spinnerNotRunning st.spinner = true) :
    (bracketOut g st s).spinner = st.spinner := by
  by_cases hc : st.captured <;>
    simp [bracketOut, hc, capturedWriteText_spinner _ _ _ h]

/-- A write issued while the stream is not captured goes to it directly. -/
theorem bracketOut_uncaptured (g : String) (st : BracketSt) (s : String)
    (h : st.captured = false) :
    bracketOut g st s
      = { st with cap := { st.cap with out := st.cap.out ++ [Chunk.text s] } } := by
  simp [bracketOut, h]

/-- `taskSpinner?.stop()` changes neither the `captured` nor the
`hasOriginal` flag. -/
theorem stopTaskSpinner_flags (g : String) (st : BracketSt) :
    (stopTaskSpinner g st).captured = st.captured
    ∧ (stopTaskSpinner g st).hasOriginal = st.hasOriginal := by
  cases hs : st.spinner <;> simp [stopTaskSpinner, hs]

/-- After `taskSpinner?.stop()` the spinner is not running. -/
theorem stopTaskSpinner_not_running (g : String) (st : BracketSt) :
    spinnerNotRunning (stopTaskSpinner g st).spinner = true := by
  cases hs : st.spinner <;>
    simp [stopTaskSpinner, hs, spinnerNotRunning, stop_not_running]

/-- `taskSpinner?.stop()` on a bracket whose spinner is absent or not
running is a complete no-op. -/
theorem stopTaskSpinner_noop (g : String) (st : BracketSt)
    (h : spinnerNotRunning st.spinner = true) :
    stopTaskSpinner g st = st := by
  obtain ⟨cap, spinner, cp, ho, ct⟩ := st
  cases hs : spinner with
  | none => simp [stopTaskSpinner, hs]
  | some sp =>
    have hr : sp.running = false := by
      rw [hs] at h
      simpa [spinnerNotRunning] using h
    subst hs
    simp [stopTaskSpinner, SpinnerState.stop, hr]

/-- After `finalize()` (with a capture stream configured and an original
writer saved) the stream is restored, the original stays saved, and the
task spinner is not running. -/
theorem finalize_facts (opts : BracketOptions) (body footer : String)
    (st : BracketSt) (b : Bool) (hc : opts.captureIsTTY = some b)
    (ho : st.hasOriginal = true) :
    (st.finalize opts body footer).captured = false
    ∧ (st.finalize opts body footer).hasOriginal = true
    ∧ spinnerNotRunning (st.finalize opts body footer).spinner = true := by
  unfold BracketSt.finalize
  dsimp only
  have h1f := stopTaskSpinner_flags body st
  have h1s := stopTaskSpinner_not_running body st
  have h2f := bracketOut_flags body (stopTaskSpinner body st) "\n"
  have h2s := bracketOut_spinner body (stopTaskSpinner body st) "\n" h1s
  set st2 := bracketOut body (stopTaskSpinner body st) "\n" with hst2
  have hr : st2.release opts
      = { st2 with captured := false } := by
    have : st2.hasOriginal = true := by rw [h2f.2, h1f.2, ho]
    simp [BracketSt.release, hc, this]
  rw [hr]
  have h4f := bracketOut_flags body { st2 with captured := false } (footer ++ "/\n")
  have h4s := bracketOut_spinner body { st2 with captured := false } (footer ++ "/\n")
    (by simpa using (h2s ▸ h1s))
  refine ⟨?_, ?_, ?_⟩
  · rw [h4f.1]
  · rw [h4f.2]
    simpa [h2f.2, h1f.2] using ho
  · rw [h4s]
    simpa using (h2s ▸ h1s)

/-! ## Claim theorems -/

/-- C1 (code bug): with task spinners enabled and an interactive capture
stream — exactly the situation in which the claim requires `task` to start
the owned spinner — the inverted ternary in the constructor discards the
spinner (`this.taskSpinner` becomes `undefined`), so `task` prints the
plain finished line `bullet, description, newline` and never starts a
spinner; conversely, on a non-interactive stream the spinner is kept and
`task` starts it. -/
theorem task_spinner_inverted :
    (mkBracket (some SpinnerState.init) bugOptsTTY).spinner = none
    ∧ (BracketSt.task "G" (fun d => d) bugOptsTTY
        (BracketSt.capture bugOptsTTY (mkBracket (some SpinnerState.init) bugOptsTTY))
        "x" { spinner := none }).cap.out
        = [Chunk.text "G", Chunk.text "x", Chunk.text "\n"]
    ∧ (BracketSt.task "G" (fun d => d) bugOptsTTY
        (BracketSt.capture bugOptsTTY (mkBracket (some SpinnerState.init) bugOptsTTY))
        "x" { spinner := none }).spinner = none
    ∧ (BracketSt.task "G" (fun d => d) bugOptsNoTTY
        (BracketSt.capture bugOptsNoTTY (mkBracket (some SpinnerState.init) bugOptsNoTTY))
        "x" { spinner := none }).spinner
        = some { running := true, currentFrame := 0, writing := false,
                 writeOnStop := some "\x08\x1b[P\n" } := by
  decide

/-- C2 (code bug): the `throws` method leaves the promise state unchanged
because the parameter shadows the closure variable, so after
`.throws(false)` a non-zero exit still terminates the process with status
1, while after `.nothrow()` it resolves to a result carrying the failing
exit code — the two are not equivalent. -/
theorem throws_false_shadowed :
    SSHPromiseState.init.throws false = SSHPromiseState.init
    ∧ runOutcome (SSHPromiseState.init.throws false) 1 = ExecOutcome.processExit 1
    ∧ runOutcome SSHPromiseState.init.nothrow 1 = ExecOutcome.result 1 := by
  decide

/-- C8: stopping a running spinner that carries a pending (non-empty)
`writeOnStop` payload writes the erase sequence and then the payload, in
that order and nothing else; the payload is cleared, a subsequent `stop`
writes nothing, and `stop` on a non-running spinner writes nothing at
all. -/
theorem stop_erase_then_payload (sp : SpinnerState) (p : String)
    (hrun : sp.running = true) (hp : sp.writeOnStop = some p) (hne : p ≠ "") :
    sp.stop.2 = ["\x1b[P", p]
    ∧ sp.stop.1.writeOnStop = none
    ∧ sp.stop.1.stop.2 = []
    ∧ (∀ sq : SpinnerState, sq.running = false → sq.stop.2 = []) := by
  refine ⟨?_, ?_, ?_, ?_⟩
  · simp [SpinnerState.stop, hrun, hp, hne]
  · simp [SpinnerState.stop, hrun]
  · simp [SpinnerState.stop, hrun]
  · intro sq h
    simp [SpinnerState.stop, h]

/-- Witness for C8 at a concrete running spinner with payload `done`. -/
theorem stop_erase_then_payload_w :
    (SpinnerState.mk true 0 false (some "done")).stop.2 = ["\x1b[P", "done"]
    ∧ (SpinnerState.mk true 0 false (some "done")).stop.1.writeOnStop = none
    ∧ (SpinnerState.mk true 0 false (some "done")).stop.1.stop.2 = []
    ∧ (∀ sq : SpinnerState, sq.running = false → sq.stop.2 = []) :=
  stop_erase_then_payload (SpinnerState.mk true 0 false (some "done")) "done"
    rfl rfl (by decide)

/-- C10: the intercepting writer returns `true` for every chunk, textual
or binary, in every state, whatever booleans the original writer would
have returned for the underlying writes (the source discards them). -/
theorem captured_write_returns_true (glyph : String) (origRet : Chunk → Bool)
    (st : BracketSt) (ch : Chunk) :
    (capturedWrite glyph origRet st ch).2 = true := by
  cases ch <;> rfl

/-- C3: when a textual write reaches the interceptor while the owned
spinner is running and not itself mid-write, the trace handed to the
underlying stream decomposes as: everything already written, then the
writes of the spinner stop (processed through the same prefixing logic),
then the complete prefixed text of the chunk — and only after that whole
write is the spinner running again (restarting writes nothing).  Hence no
spinner-frame bytes are interleaved with the bytes of the write. -/
theorem spinner_stop_before_write (glyph : String) (cap : CapSt)
    (sp : SpinnerState) (cp ho ct : Bool) (s : String)
    (hrun : sp.running = true) (hw : sp.writing = false) :
    (capturedWriteText glyph ⟨cap, some sp, cp, ho, ct⟩ s).cap.out
      = cap.out ++ (emitsOfWrites glyph cap.newline sp.stop.2).1
          ++ (writeLines glyph (splitChunk s)
                (emitsOfWrites glyph cap.newline sp.stop.2).2).1
    ∧ ∃ sp2, (capturedWriteText glyph ⟨cap, some sp, cp, ho, ct⟩ s).spinner
          = some sp2 ∧ sp2.running = true := by
  have hcond : (!sp.writing && sp.running) = true := by rw [hw, hrun]; rfl
  constructor
  · simp only [capturedWriteText, hcond, if_true]
    rw [foldl_writeText, writeText_eq]
  · simp only [capturedWriteText, hcond, if_true]
    refine ⟨_, rfl, ?_⟩
    simp [SpinnerState.start, SpinnerState.stop, hrun]

/-- Witness for C3: a running spinner with a pending payload, a dirty
continuation flag and a two-line chunk. -/
theorem spinner_stop_before_write_w :
    (capturedWriteText "G" ⟨⟨true, []⟩, some ⟨true, 2, false, some "p"⟩, true, true, false⟩
        "hi\nbye").cap.out
      = [] ++ (emitsOfWrites "G" true (SpinnerState.mk true 2 false (some "p")).stop.2).1
          ++ (writeLines "G" (splitChunk "hi\nbye")
                (emitsOfWrites "G" true (SpinnerState.mk true 2 false (some "p")).stop.2).2).1
    ∧ ∃ sp2, (capturedWriteText "G"
          ⟨⟨true, []⟩, some ⟨true, 2, false, some "p"⟩, true, true, false⟩
          "hi\nbye").spinner = some sp2 ∧ sp2.running = true :=
  spinner_stop_before_write "G" ⟨true, []⟩ ⟨true, 2, false, some "p"⟩ true true false
    "hi\nbye" rfl rfl

/-- C9: from a fresh line with the spinner not running, the two sequential
textual writes `ab` then `c newline` emit exactly one body-glyph prefix
followed by the two fragments — the continuation flag carried across the
calls suppresses a second prefix — and the bytes reaching the stream are
the glyph followed by `abc` and the newline. -/
theorem continuation_single_glyph (glyph : String) (st : BracketSt)
    (hnl : st.cap.newline = true) (hsp : spinnerNotRunning st.spinner = true) :
    (capturedWriteText glyph (capturedWriteText glyph st "ab") "c\n").cap.out
      = st.cap.out ++ [Chunk.text glyph, Chunk.text "ab", Chunk.text "c\n"]
    ∧ chunksText [Chunk.text glyph, Chunk.text "ab", Chunk.text "c\n"]
      = glyph ++ "abc\n" := by
  have hab : splitChunk "ab" = ["ab"] := by decide
  have hcn : splitChunk "c\n" = ["c\n"] := by decide
  have he1 : endsWithNl "ab" = false := by decide
  have he2 : endsWithNl "c\n" = true := by decide
  constructor
  · have step : ∀ st2 : BracketSt, spinnerNotRunning st2.spinner = true →
        ∀ s2 : String, capturedWriteText glyph st2 s2
          = { st2 with cap := writeText glyph st2.cap s2 } := by
      intro st2 h2 s2
      match hs : st2.spinner with
      | none => simp [capturedWriteText, hs]
      | some sp =>
        have : sp.running = false := by
          have := h2
          rw [hs] at this
          simpa [spinnerNotRunning] using this
        simp [capturedWriteText, hs, this]
    rw [step st hsp "ab", step _ (by simpa [spinnerNotRunning] using hsp) "c\n"]
    simp [writeText_eq, writeLines, hab, hcn, he1, he2, hnl, List.append_assoc]
  · show glyph ++ ("ab" ++ ("c\n" ++ "")) = glyph ++ "abc\n"
    have : ("ab" : String) ++ ("c\n" ++ "") = "abc\n" := by decide
    rw [this]

/-- Witness for C9: a captured bracket at the start of a line with no
spinner, glyph `G`. -/
theorem continuation_single_glyph_w :
    (capturedWriteText "G" (capturedWriteText "G" ⟨⟨true, []⟩, none, true, true, false⟩
        "ab") "c\n").cap.out
      = [] ++ [Chunk.text "G", Chunk.text "ab", Chunk.text "c\n"]
    ∧ chunksText [Chunk.text "G", Chunk.text "ab", Chunk.text "c\n"]
      = "G" ++ "abc\n" :=
  continuation_single_glyph "G" ⟨⟨true, []⟩, none, true, true, false⟩ rfl rfl

/-- C4 counterexample: for the raw expression carrying the three bytes
space-x-space (between two empty fragments), the built command is the
single byte `x`: the builder trims each formatted expression, so the
output does not contain the raw string byte-identical. -/
theorem raw_byte_identical_cex :
    buildCommand (fun s => s) ["", ""] [ShellExpr.raw " x "] = "x"
    ∧ ¬ (" x ".data <:+: (buildCommand (fun s => s) ["", ""]
          [ShellExpr.raw " x "]).data) := by
  have h : buildCommand (fun s => s) ["", ""] [ShellExpr.raw " x "] = "x" := by
    simp only [buildCommand, fmt, trimArg]
    decide
  refine ⟨h, ?_⟩
  rw [h]
  decide

/-- C4 amended: wherever `buildCommand` consumes a raw expression it
inserts its text with no escaping applied — `fmt` returns the carried
string itself — and the only alteration is the trim applied to every
formatted expression, so a raw string without leading or trailing
whitespace appears byte-identical. -/
theorem raw_inserted_unescaped (esc : String → String) (p : String)
    (ps : List String) (es : List ShellExpr) (r : String) (h : jsTrim r = r) :
    buildCommand esc (p :: ps) (ShellExpr.raw r :: es)
      = normalizeWs p ++ (r ++ buildCommand esc ps es)
    ∧ fmt esc (ShellExpr.raw r) = r := by
  constructor
  · simp [buildCommand, fmt, trimArg, h, String.append_assoc]
  · simp [fmt]

/-- Witness for C4 amended: the raw string `x` between the fragments
`echo` -space and empty. -/
theorem raw_inserted_unescaped_w :
    jsTrim "x" = "x"
    ∧ (buildCommand (fun s => s) ["echo ", ""] [ShellExpr.raw "x"]
        = normalizeWs "echo " ++ ("x" ++ buildCommand (fun s => s) [""] [])
      ∧ fmt (fun s => s) (ShellExpr.raw "x") = "x") :=
  ⟨by decide,
   raw_inserted_unescaped (fun s => s) "echo " [""] [] "x" (by decide)⟩

/-- C6 counterexample: a remote execution built by the SSH executor with
defaults (no tty, no proxy, no extra args) generates the empty flag list —
in particular the invocation does not contain the option disabling strict
host-key checking that the claim requires of every remote execution. -/
theorem ssh_hostkey_not_disabled_cex :
    buildSSHFlags false none [] = []
    ∧ ¬ ("StrictHostKeyChecking=no" ∈ buildSSHFlags false none [])
    ∧ ¬ ("StrictHostKeyChecking=no" ∈ buildSSHFlags true none []) := by
  decide

/-- C6 amended: the `rsync` helper does disable strict host-key checking
and known-hosts verification by default (whenever the caller has not set
`hostKeyVerification` to true), while the SSH executor itself never adds
the disabling option — it can appear in its flags only if the caller
supplied it via `sshArgs` or as the proxy value. -/
theorem hostkey_defaults (proxy : Option String) (hkv : Option Bool)
    (tty : Bool) (args : List String) (h : hkv ≠ some true)
    (hargs : "StrictHostKeyChecking=no" ∉ args)
    (hproxy : proxy ≠ some "StrictHostKeyChecking=no") :
    "StrictHostKeyChecking=no" ∈ rsyncSSHFlags proxy hkv
    ∧ "UserKnownHostsFile=/dev/null" ∈ rsyncSSHFlags proxy hkv
    ∧ "StrictHostKeyChecking=no" ∉ buildSSHFlags tty proxy args := by
  have hk : hkv.getD false = false := by
    match hkv with
    | none => rfl
    | some true => exact absurd rfl h
    | some false => rfl
  refine ⟨?_, ?_, ?_⟩
  · cases proxy <;> simp [rsyncSSHFlags, hk]
  · cases proxy <;> simp [rsyncSSHFlags, hk]
  · intro hmem
    rcases proxy with _ | p
    · cases tty <;> revert hmem <;>
        simp [buildSSHFlags, hargs]
    · have hp : p ≠ "StrictHostKeyChecking=no" := by
        intro he
        exact hproxy (by rw [he])
      by_cases he : p = ""
      · cases tty <;> revert hmem <;> simp [buildSSHFlags, he, hargs]
      · cases tty <;> revert hmem <;>
          simp [buildSSHFlags, he, hargs, hp, Ne.symm hp]

/-- Witness for C6 amended: defaults everywhere. -/
theorem hostkey_defaults_w :
    "StrictHostKeyChecking=no" ∈ rsyncSSHFlags none none
    ∧ "UserKnownHostsFile=/dev/null" ∈ rsyncSSHFlags none none
    ∧ "StrictHostKeyChecking=no" ∉ buildSSHFlags false none [] :=
  hostkey_defaults none none false [] (by decide) (by decide) (by decide)

/-- C5 counterexample: on a concrete captured bracket, the second
`finalize` call does change the stream — it writes the blank line and a
second footer — so the restore/footer side effects are not performed only
once observably. -/
theorem finalize_twice_cex :
    (BracketSt.finalize c5Opts "G" "F"
        (BracketSt.finalize c5Opts "G" "F" c5Bracket)).cap.out
      = (BracketSt.finalize c5Opts "G" "F" c5Bracket).cap.out
        ++ [Chunk.text "\n", Chunk.text ("F" ++ "/\n")]
    ∧ (BracketSt.finalize c5Opts "G" "F"
        (BracketSt.finalize c5Opts "G" "F" c5Bracket)).cap.out
      ≠ (BracketSt.finalize c5Opts "G" "F" c5Bracket).cap.out := by
  decide

/-- C5 amended: a second `finalize` call does not throw (it is a total
state transformation) and does not double-restore — the restore is
idempotent, the stream stays exactly once-restored — but it does print the
blank line and the footer line again; those two chunks are precisely what
the second call adds to the stream. -/
theorem finalize_second_call (opts : BracketOptions) (body footer : String)
    (st : BracketSt) (b : Bool) (hc : opts.captureIsTTY = some b)
    (ho : st.hasOriginal = true) :
    (st.finalize opts body footer).captured = false
    ∧ ((st.finalize opts body footer).finalize opts body footer).captured = false
    ∧ ((st.finalize opts body footer).finalize opts body footer).cap.out
        = (st.finalize opts body footer).cap.out
          ++ [Chunk.text "\n", Chunk.text (footer ++ "/\n")] := by
  obtain ⟨hf1, hf2, hf3⟩ := finalize_facts opts body footer st b hc ho
  refine ⟨hf1, ?_, ?_⟩
  · exact (finalize_facts opts body footer _ b hc hf2).1
  · set f1 := st.finalize opts body footer with hdef
    unfold BracketSt.finalize
    dsimp only
    rw [stopTaskSpinner_noop body f1 hf3]
    rw [bracketOut_uncaptured body f1 "\n" hf1]
    have hrel : BracketSt.release opts
        { f1 with cap := { f1.cap with out := f1.cap.out ++ [Chunk.text "\n"] } }
        = { f1 with
            cap := { f1.cap with out := f1.cap.out ++ [Chunk.text "\n"] },
            captured := false } := by
      simp [BracketSt.release, hc, hf2]
    rw [hrel]
    rw [bracketOut_uncaptured body _ (footer ++ "/\n") rfl]
    simp

/-- Witness for C5 amended at the concrete captured bracket. -/
theorem finalize_second_call_w :
    (c5Bracket.finalize c5Opts "G" "F").captured = false
    ∧ ((c5Bracket.finalize c5Opts "G" "F").finalize c5Opts "G" "F").captured = false
    ∧ ((c5Bracket.finalize c5Opts "G" "F").finalize c5Opts "G" "F").cap.out
        = (c5Bracket.finalize c5Opts "G" "F").cap.out
          ++ [Chunk.text "\n", Chunk.text ("F" ++ "/\n")] :=
  finalize_second_call c5Opts "G" "F" c5Bracket false rfl (by decide)

/-- C7: for a remote execution with cwd `/tmp` and env mapping `A` to `1`,
the single remote command argument is the cd prefix, then the env prefix,
then the escaped inner command, in that order; when the external escape
renders `/tmp` as its single-quoted form and leaves `1` alone (the
renderings the spec asserts), the argument begins with the exact prefix
the claim states. -/
theorem remote_arg_cd_env_order (esc : String → String) (strings : List String)
    (exprs : List SSHExpr) :
    remoteCommandArg esc (some "/tmp") [("A", some "1")] strings exprs
      = (("cd " ++ esc "/tmp" ++ " && ") ++ ("A" ++ "=" ++ esc "1" ++ " "))
        ++ buildCmd esc strings exprs
    ∧ (esc "/tmp" = "\x27/tmp\x27" → esc "1" = "1" →
        ∃ rest, remoteCommandArg esc (some "/tmp") [("A", some "1")] strings exprs
          = "cd \x27/tmp\x27 && A=1 " ++ rest) := by
  have h1 : remoteCommandArg esc (some "/tmp") [("A", some "1")] strings exprs
      = (("cd " ++ esc "/tmp" ++ " && ") ++ ("A" ++ "=" ++ esc "1" ++ " "))
        ++ buildCmd esc strings exprs := by
    simp [remoteCommandArg, buildPrefix, jsString, String.empty_append]
  refine ⟨h1, fun e1 e2 => ⟨buildCmd esc strings exprs, ?_⟩⟩
  rw [h1, e1, e2]
  congr 1

/-- Witness for C7 with the concrete escape function `escW` and inner
command `echo hi`. -/
theorem remote_arg_cd_env_order_w :
    ∃ rest, remoteCommandArg escW (some "/tmp") [("A", some "1")] ["echo hi"] []
      = "cd \x27/tmp\x27 && A=1 " ++ rest :=
  (remote_arg_cd_env_order escW ["echo hi"] []).2 (by decide) (by decide)

end ScriptUtil
